import Mathlib

/-!
Verification development for the termite risk-index viewer
(`risk_index_map.py`): a shallow embedding of its schema resolver,
coordinate sanitizer, distance engine, proximity query and selection
state machine, with theorems checking the behavioural claims made about
the program.

Modelling conventions:
* pandas rows become Lean structures; numeric cells are `ℚ` (the filter,
  threshold and rank logic of the program is exact arithmetic on these);
  the haversine distance itself is real-valued and modelled over `ℝ`.
* the stateful Streamlit session (`st.session_state`) becomes an explicit
  `AppState` record, and each script fragment that mutates it becomes a
  state-passing function.
* `pandas.sort_values` with the default `kind="quicksort"` sorts by the
  key but leaves the relative order of tied keys unspecified; it is
  modelled by the relation `sortValuesOut` (any permutation of the input
  that is sorted by the key).  Where the state machine needs one
  executable representative, `proximityQuery` uses a stable merge sort;
  no theorem about tie order is proved from that representative.
-/

namespace RiskIndex

/-- One sanitized data row (`df` after the lat/lon clean-up): the columns
the program actually consumes. -/
structure Record where
  lat : ℚ
  lon : ℚ
  address : String
  street : String
  risk : String
deriving DecidableEq, Repr

/-- A raw CSV cell before `pd.to_numeric(..., errors="coerce")`: either a
numeric value, unparseable text, or already missing (NaN). -/
inductive Cell where
  | num (q : ℚ)
  | text (s : String)
  | empty
deriving DecidableEq, Repr

/-- Behaviour of `pd.to_numeric(c, errors="coerce")` on one cell: numeric
values pass through, anything unparseable (text or missing) becomes
missing. -/
def toNumeric : Cell → Option ℚ
  | .num q => some q
  | .text _ => none
  | .empty => none

/-- One raw CSV row before sanitization: latitude/longitude cells plus the
textual columns the app displays. -/
structure RawRecord where
  lat : Cell
  lon : Cell
  address : String
  street : String
  risk : String
deriving DecidableEq, Repr

/-- Lines 108-110 of the source: coerce both coordinate columns to
numeric and drop every row whose latitude or longitude is missing
(`df.dropna(subset=[lat_col, lon_col])`). -/
def sanitize (rows : List RawRecord) : List Record :=
  rows.filterMap fun r =>
    match toNumeric r.lat, toNumeric r.lon with
    | some a, some b => some ⟨a, b, r.address, r.street, r.risk⟩
    | _, _ => none

/-- Line 118 of the source: the default map center
`df[lat_col].mean(), df[lon_col].mean()` — arithmetic mean of the
sanitized coordinates. -/
def centroid (ds : List Record) : ℚ × ℚ :=
  ((ds.map Record.lat).sum / ds.length, (ds.map Record.lon).sum / ds.length)

/-- Python's `str.lower()` restricted to the ASCII case folding the
column names use, defined over the character list so that it evaluates
inside the kernel. -/
def pyLower (s : String) : String := String.mk (s.data.map Char.toLower)

/-- Python's `str.startswith(pre)` as a character-list check. -/
def pyStartsWith (s pre : String) : Bool := pre.data.isPrefixOf s.data

/-- Lines 69-78 of the source, `find_col(cols, candidates)`: first a
case-insensitive exact match (`cand.lower() in cols_l`, returning
`cols[cols_l.index(cand.lower())]`), then a case-insensitive prefix scan
(`c.lower().startswith(cand.lower())`), else `None`. -/
def find_col (cols candidates : List String) : Option String :=
  let cols_l := cols.map (fun c => pyLower c)
  match candidates.find? (fun cand => cols_l.contains (pyLower cand)) with
  | some cand => cols[cols_l.indexOf (pyLower cand)]?
  | none =>
      candidates.findSome? fun cand =>
        cols.find? fun c => pyStartsWith (pyLower c) (pyLower cand)

/-- Modelled from the spec (§4.1 algorithm, for the refinement proof of
the resolver claim): phase (a) scans the ordered candidate list for the
first candidate having a case-insensitive exact match and returns the
first column matching it; phase (b), reached only when no candidate
matches exactly, returns in candidate order the first column whose
lowercased name starts with the candidate; otherwise the role is
unresolved. -/
def resolveRoleSpec (cols candidates : List String) : Option String :=
  match candidates.find? (fun cand => cols.any (fun c => pyLower c == pyLower cand)) with
  | some cand => cols.find? (fun c => pyLower c == pyLower cand)
  | none =>
      candidates.findSome? fun cand =>
        cols.find? fun c => pyStartsWith (pyLower c) (pyLower cand)

/-- Line 80 of the source: candidate names for the latitude column. -/
def lat_candidates : List String := ["latitude", "lat"]

/-- Line 81 of the source: candidate names for the longitude column. -/
def lon_candidates : List String := ["longitude", "lon", "lng"]

/-- Line 84 of the source: candidate names for the risk-category column. -/
def risk_candidates : List String := ["risk_level", "risk", "category"]

/-- Line 90 of the source: the single fixed error message used whenever a
required column is unresolved. -/
def required_cols_msg : String :=
  "CSV must contain latitude, longitude, and risk_level columns."

/-- Lines 89-91 of the source: `if not lat_col or not lon_col or not
risk_col: st.error(...); st.stop()` — report the fixed message (and halt)
when any of the three required roles is unresolved. -/
def schemaGate (cols : List String) : Option String :=
  if (find_col cols lat_candidates).isNone ∨ (find_col cols lon_candidates).isNone
      ∨ (find_col cols risk_candidates).isNone then
    some required_cols_msg
  else
    none

/-- Line 101 of the source: `radius_m = radius_toggle * 0.3048` (feet to
meters) for the selected radius toggle (200 or 300 ft). -/
def radius_m (radius_toggle : ℚ) : ℚ := radius_toggle * 0.3048

/-- Line 164 of the source:
`draw_radius_m = radius_m * (1.25 if radius_toggle == 200 else 1.1667)`,
the radius the blue circle is drawn with on the detail map. -/
def draw_radius_m (radius_toggle : ℚ) : ℚ :=
  radius_m radius_toggle * (if radius_toggle == 200 then 1.25 else 1.1667)

/-- Degrees to radians, as `np.radians`. -/
noncomputable def deg2rad (x : ℝ) : ℝ := x * (Real.pi / 180)

/-- Lines 130-138 of the source, `haversine_vec` applied to one point:
haversine great-circle distance in meters on a sphere of radius
6 371 000 m. -/
noncomputable def haversine_vec (lat0 lon0 lat lon : ℝ) : ℝ :=
  let R : ℝ := 6371000
  let phi1 := deg2rad lat0
  let phi2 := deg2rad lat
  let dphi := deg2rad (lat - lat0)
  let dlambda := deg2rad (lon - lon0)
  let a := Real.sin (dphi / 2) ^ 2
    + Real.cos phi1 * Real.cos phi2 * Real.sin (dlambda / 2) ^ 2
  2 * R * Real.arcsin (Real.sqrt a)

/-- The vectorized call `haversine_vec(lat0, lon0, lats, lons)`: one
distance per point of the dataset, in dataset order. -/
noncomputable def distancesVec (lat0 lon0 : ℝ) (pts : List (ℝ × ℝ)) : List ℝ :=
  pts.map fun p => haversine_vec lat0 lon0 p.1 p.2

/-- Line 168 of the source: the dataset annotated with its distance
column, `temp_df["dist_m"] = haversine_vec(...)`.  The distance engine is
abstracted as the function computing that column, so that the exact
filter/sort/rank logic can be stated over exact rationals. -/
def withDist (dist : Record → ℚ) (ds : List Record) : List (Record × ℚ) :=
  ds.map fun r => (r, dist r)

/-- Line 169 of the source: `temp_df[temp_df["dist_m"] <= radius_m]` —
keep exactly the rows whose distance is at most the (unscaled) query
radius. -/
def nearbyFilter (radius : ℚ) (rows : List (Record × ℚ)) : List (Record × ℚ) :=
  rows.filter fun x => x.2 ≤ radius

/-- Boolean check that a distance-annotated row list is sorted by
non-decreasing distance. -/
def sortedByDistB : List (Record × ℚ) → Bool
  | [] => true
  | [_] => true
  | a :: b :: t => (a.2 ≤ b.2 : Bool) && sortedByDistB (b :: t)

/-- Line 175 of the source, `nearby_df.sort_values("dist_m",
ascending=True)` with the pandas default `kind="quicksort"`: the output
is some permutation of the input that is sorted by the distance column —
the relative order of rows with equal distance is not specified by the
sorting algorithm used. -/
def sortValuesOut (input output : List (Record × ℚ)) : Prop :=
  output.Perm input ∧ sortedByDistB output = true

/-- Lines 167-175 of the source as a relation: `output` is a possible
value of `nearby_df` after the distance column, radius filter and
`sort_values` steps, for the dataset already annotated with distances. -/
def proximityRel (radius : ℚ) (rows output : List (Record × ℚ)) : Prop :=
  sortValuesOut (nearbyFilter radius rows) output

/-- Line 176 of the source: `nearby_df["Distance Rank"] = nearby_df.index
+ 1` after `reset_index(drop=True)` — pair each row with its 1-based
position. -/
def assignRanks (rows : List (Record × ℚ)) : List ((Record × ℚ) × ℕ) :=
  rows.enum.map fun p => (p.2, p.1 + 1)

/-- Ties in the sense of the stability property: rows with equal distance
must appear in the same relative order in `output` as in `input`. -/
def StableTies (input output : List (Record × ℚ)) : Prop :=
  ∀ x ∈ output, ∀ y ∈ output, x.2 = y.2 →
    (output.indexOf x < output.indexOf y ↔ input.indexOf x < input.indexOf y)

/-- Insert a row into a distance-sorted list, after every row of strictly
smaller distance and before every other row (so equal-distance rows keep
their relative order). -/
def insertByDist (x : Record × ℚ) : List (Record × ℚ) → List (Record × ℚ)
  | [] => [x]
  | y :: ys => if y.2 < x.2 then y :: insertByDist x ys else x :: y :: ys

/-- Stable insertion sort by non-decreasing distance. -/
def sortByDist (rows : List (Record × ℚ)) : List (Record × ℚ) :=
  rows.foldr insertByDist []

/-- One executable representative of lines 167-176: annotate with the
distance column, filter by the radius, and sort by distance (tie order
fixed here by a stable sort purely so that the state machine is
executable; the program itself leaves tie order unspecified, see
`sortValuesOut`). -/
def proximityQuery (dist : Record → ℚ) (radius : ℚ) (ds : List Record) :
    List (Record × ℚ) :=
  sortByDist (nearbyFilter radius (withDist dist ds))

/-- Lines 156-186 of the source, `build_focused_map_and_nearby` reduced
to its observable outputs: the list of neighbor marker coordinates (the
loop `for _, r in nearby_df.iterrows()` draws one `CircleMarker` at
`(r[lat_col], r[lon_col])` for every row of `nearby_df`, with no self
exclusion) and `nearby_df` itself. -/
def build_focused_map_and_nearby (dist : Record → ℚ) (radius : ℚ)
    (ds : List Record) : List (ℚ × ℚ) × List (Record × ℚ) :=
  let nearby := proximityQuery dist radius ds
  (nearby.map fun x => (x.1.lat, x.1.lon), nearby)

/-- Which tab group is listed first (line 235-238): `"map"` is the
overview, `"table"` the detail view. -/
inductive Tab where
  | map
  | table
deriving DecidableEq, Repr

/-- The session state of lines 123-125: `selected`, `nearby_df`,
`active_tab`. -/
structure AppState where
  selected : Option Record
  nearby : List (Record × ℚ)
  active_tab : Tab
deriving DecidableEq, Repr

/-- Lines 123-125 of the source: `st.session_state.setdefault` values —
no selection, empty neighbor table, map tab. -/
def initialState : AppState := ⟨none, [], Tab.map⟩

/-- Lines 143-147 of the source: on a non-empty search choice, select the
first row whose address column equals the choice and switch to the table
tab; otherwise leave the state unchanged. -/
def searchStep (ds : List Record) (choice : String) (s : AppState) : AppState :=
  if choice = "" then s
  else
    match ds.find? (fun r => r.address == choice) with
    | some r => { s with selected := some r, active_tab := Tab.table }
    | none => s

/-- Lines 240-248 of the source (the tab1 render): with a selection,
recompute `nearby_df` from the selected record at the current radius
(`st.session_state.nearby_df = nearby`); with no selection, draw the base
map and leave the stored `nearby_df` untouched.  `distOf sel` is the
distance column computed from the selected record's coordinates. -/
def tab1Render (distOf : Record → Record → ℚ) (ds : List Record) (radius : ℚ)
    (s : AppState) : AppState :=
  match s.selected with
  | none => s
  | some sel => { s with nearby := proximityQuery (distOf sel) radius ds }

/-- Behaviour of `np.argmin` over a rational list: index and value of the
first occurrence of the minimum, `none` on the empty list (where
`np.argmin` raises instead). -/
def argmin? : List ℚ → Option (ℕ × ℚ)
  | [] => none
  | x :: xs =>
    match argmin? xs with
    | none => some (0, x)
    | some (j, m) => if x ≤ m then some (0, x) else some (j + 1, m)

/-- Outcome of one execution of the click handler: the updated session
state, whether a non-fatal toast notice was shown, and whether
`st.rerun()` was called. -/
structure ClickResult where
  state : AppState
  notice : Bool
  rerun : Bool
deriving DecidableEq, Repr

/-- Placeholder row used only as the (provably unreachable) default of
`List.getD` at the `np.argmin` index. -/
def defaultRecord : Record := ⟨0, 0, "", "", ""⟩

/-- Lines 251-291 of the source, the map-click handler: compute the
distances from the clicked point to every record, take `np.argmin`; if
the minimal distance exceeds `radius_m`, show the toast, set
`selected = None` and `active_tab = "map"` (note: `nearby_df` is not
touched); otherwise select the nearest row, set `active_tab = "table"`
and call `st.rerun()`.  The `except` branch (reached e.g. when the
dataset is empty and `np.argmin` raises) also shows a toast and resets
`selected`/`active_tab`. -/
def clickStep (clickDist : Record → ℚ) (ds : List Record) (radius : ℚ)
    (s : AppState) : ClickResult :=
  match argmin? (ds.map clickDist) with
  | none => ⟨{ s with selected := none, active_tab := Tab.map }, true, false⟩
  | some (j, m) =>
    if radius < m then
      ⟨{ s with selected := none, active_tab := Tab.map }, true, false⟩
    else
      let hit : AppState :=
        { s with selected := some (ds.getD j defaultRecord),
                 active_tab := Tab.table }
      ⟨hit, false, true⟩

/-- One full click interaction with no active search choice: the script
run first executes the tab1 render (recomputing `nearby_df` from the
pre-click selection), then the click handler; when the handler called
`st.rerun()`, the following run renders tab1 again with the new
selection, which recomputes `nearby_df` for it. -/
def clickInteraction (distOf : Record → Record → ℚ) (clickDist : Record → ℚ)
    (ds : List Record) (radius : ℚ) (s : AppState) : ClickResult :=
  let s1 := tab1Render distOf ds radius s
  let res := clickStep clickDist ds radius s1
  if res.rerun then
    { res with state := tab1Render distOf ds radius res.state }
  else
    res

/-! ### Concrete data used in counterexamples and witnesses -/

/-- A concrete record used in counterexamples and witnesses. -/
def demoA : Record := ⟨1, 2, "A", "A Street", "Low"⟩

/-- A second concrete record, distinct from `demoA`. -/
def demoB : Record := ⟨1, 3, "B", "B Street", "High"⟩

/-! ### Helper lemmas -/

lemma mem_insertByDist {y x : Record × ℚ} {l : List (Record × ℚ)} :
    y ∈ insertByDist x l ↔ y = x ∨ y ∈ l := by
  induction l with
  | nil => simp [insertByDist]
  | cons a t ih =>
      by_cases h : a.2 < x.2
      · simp [insertByDist, h, ih]
        tauto
      · simp [insertByDist, h]

lemma mem_sortByDist {y : Record × ℚ} {l : List (Record × ℚ)} :
    y ∈ sortByDist l ↔ y ∈ l := by
  induction l with
  | nil => simp [sortByDist]
  | cons a t ih =>
      show y ∈ insertByDist a (sortByDist t) ↔ _
      simp [mem_insertByDist, ih]

/-! ### C5 — inclusive radius boundary -/

/-- C5: the radius filter keeps exactly the records whose distance is at
most the threshold (inclusive), the 200 ft threshold is exactly
60.96 m = 200 × 0.3048, a record at distance 60.96 m is kept, and one at
60.97 m is excluded. -/
theorem radius_filter_inclusive_boundary :
    (∀ (radius : ℚ) (rows : List (Record × ℚ)) (x : Record × ℚ),
        x ∈ nearbyFilter radius rows ↔ x ∈ rows ∧ x.2 ≤ radius)
  ∧ radius_m 200 = 60.96
  ∧ (demoA, (60.96 : ℚ)) ∈ nearbyFilter (radius_m 200) [(demoA, 60.96), (demoB, 60.97)]
  ∧ (demoB, (60.97 : ℚ)) ∉ nearbyFilter (radius_m 200) [(demoA, 60.96), (demoB, 60.97)] := by
  refine ⟨?_, by norm_num [radius_m], ?_, ?_⟩
  · intro radius rows x
    simp [nearbyFilter, List.mem_filter]
  · simp only [nearbyFilter, List.mem_filter]
    norm_num [radius_m]
  · simp only [nearbyFilter, List.mem_filter]
    norm_num [radius_m]

/-! ### C10 — inflated drawn circle -/

/-- C10: the circle drawn on the detail map uses the query radius scaled
by 1.25 (200 ft) or 1.1667 (300 ft), strictly larger than the unscaled
radius; the neighbor filter keeps only rows with distance at most the
unscaled radius, so every returned record lies strictly inside the drawn
circle. -/
theorem draw_radius_inflated :
    draw_radius_m 200 = radius_m 200 * 1.25
  ∧ draw_radius_m 300 = radius_m 300 * 1.1667
  ∧ radius_m 200 < draw_radius_m 200
  ∧ radius_m 300 < draw_radius_m 300
  ∧ (∀ (dist : Record → ℚ) (ds : List Record) (x : Record × ℚ),
        x ∈ (build_focused_map_and_nearby dist (radius_m 200) ds).2 →
          x.2 < draw_radius_m 200)
  ∧ (∀ (dist : Record → ℚ) (ds : List Record) (x : Record × ℚ),
        x ∈ (build_focused_map_and_nearby dist (radius_m 300) ds).2 →
          x.2 < draw_radius_m 300) := by
  have h200 : radius_m 200 < draw_radius_m 200 := by norm_num [radius_m, draw_radius_m]
  have h300 : radius_m 300 < draw_radius_m 300 := by norm_num [radius_m, draw_radius_m]
  refine ⟨rfl, by norm_num [draw_radius_m], h200, h300, ?_, ?_⟩
  · intro dist ds x hx
    have hx' : x ∈ nearbyFilter (radius_m 200) (withDist dist ds) := by
      simpa [build_focused_map_and_nearby, proximityQuery, mem_sortByDist] using hx
    simp only [nearbyFilter, List.mem_filter, decide_eq_true_eq] at hx'
    exact lt_of_le_of_lt hx'.2 h200
  · intro dist ds x hx
    have hx' : x ∈ nearbyFilter (radius_m 300) (withDist dist ds) := by
      simpa [build_focused_map_and_nearby, proximityQuery, mem_sortByDist] using hx
    simp only [nearbyFilter, List.mem_filter, decide_eq_true_eq] at hx'
    exact lt_of_le_of_lt hx'.2 h300

/-- Witness for `draw_radius_inflated`: a concrete row returned by the
query at the 200 ft radius lies strictly inside the drawn circle. -/
theorem draw_radius_inflated_witness :
    (demoA, (0 : ℚ)) ∈ (build_focused_map_and_nearby (fun _ => 0) (radius_m 200) [demoA]).2
  ∧ (0 : ℚ) < draw_radius_m 200 :=
  have hmem : (demoA, (0 : ℚ)) ∈
      (build_focused_map_and_nearby (fun _ => 0) (radius_m 200) [demoA]).2 := by
    simp only [build_focused_map_and_nearby, proximityQuery, mem_sortByDist,
      nearbyFilter, withDist, List.map_cons, List.map_nil, List.mem_filter]
    norm_num [radius_m]
  ⟨hmem, draw_radius_inflated.2.2.2.2.1 (fun _ => 0) [demoA] (demoA, 0) hmem⟩

/-! ### C7 — schema resolver algorithm -/

lemma getElem?_indexOf_map (x : String) (l : List String) :
    l[(l.map (fun c => pyLower c)).indexOf x]? = l.find? (fun c => pyLower c == x) := by
  induction l with
  | nil => rfl
  | cons a t ih =>
      simp only [List.map_cons, List.indexOf_cons]
      cases h : pyLower a == x with
      | true => simp [List.find?_cons, h]
      | false => simp [List.find?_cons, h, ih]

/-- C7: `find_col` implements exactly the two-phase role resolution the
spec describes — a case-insensitive exact-match pass over the ordered
candidate list (first candidate with an exact match wins, resolving to
the first column carrying that name), then, only when no candidate
matches exactly, a case-insensitive prefix pass in candidate order, and
`none` when both fail.  Being a pure function of the column list and the
candidate list, the mapping is deterministic. -/
theorem find_col_follows_spec (cols candidates : List String) :
    find_col cols candidates = resolveRoleSpec cols candidates := by
  have hpred : ∀ cand : String,
      ((cols.map (fun c => pyLower c)).contains (pyLower cand))
        = cols.any (fun c => pyLower c == pyLower cand) := by
    intro cand
    rw [List.contains_eq_any_beq, List.any_map]
    have hfun : ((pyLower cand == ·) ∘ (fun c : String => pyLower c))
        = fun c : String => pyLower c == pyLower cand := by
      funext c
      exact Bool.beq_comm
    rw [hfun]
  have hfind : candidates.find? (fun cand => (cols.map (fun c => pyLower c)).contains (pyLower cand))
      = candidates.find? (fun cand => cols.any (fun c => pyLower c == pyLower cand)) := by
    congr 1
    funext cand
    exact hpred cand
  simp only [find_col, resolveRoleSpec, hfind]
  cases hc : candidates.find? (fun cand => cols.any (fun c => pyLower c == pyLower cand)) with
  | none => rfl
  | some cand => exact getElem?_indexOf_map (pyLower cand) cols

/-! ### C3 — required-role gate and its error message -/

/-- Counterexample for C3 as stated: the run whose columns are missing
only the latitude role and the run missing only the longitude role
produce the identical fixed error message, so the message does not
identify which required role is missing. -/
theorem schemaGate_message_not_specific :
    schemaGate ["longitude", "risk_level"] = some required_cols_msg
  ∧ schemaGate ["latitude", "risk_level"] = some required_cols_msg
  ∧ find_col ["longitude", "risk_level"] lat_candidates = none
  ∧ find_col ["latitude", "risk_level"] lon_candidates = none
  ∧ schemaGate ["longitude", "risk_level"] = schemaGate ["latitude", "risk_level"] := by
  refine ⟨?_, ?_, ?_, ?_, ?_⟩ <;> decide

/-- C3 (amended): the load halts with an error exactly when one of the
latitude, longitude or risk-category roles is unresolved, and the error
is always the one fixed message naming all three required columns (so it
does not single out the missing role). -/
theorem schemaGate_halts_on_missing_role (cols : List String) :
    ((schemaGate cols).isSome ↔
      (find_col cols lat_candidates = none ∨ find_col cols lon_candidates = none
        ∨ find_col cols risk_candidates = none))
  ∧ (schemaGate cols = none ∨ schemaGate cols = some required_cols_msg) := by
  constructor
  · unfold schemaGate
    split
    · rename_i h
      simp only [Option.isNone_iff_eq_none] at h
      simpa using h
    · rename_i h
      simp only [Option.isNone_iff_eq_none] at h
      simpa using h
  · unfold schemaGate
    split
    · right
      rfl
    · left
      rfl

/-! ### C8 — coordinate sanitizer and centroid -/

lemma sanitizeRow_eq (raw : RawRecord) (r : Record) :
    (match toNumeric raw.lat, toNumeric raw.lon with
      | some a, some b => some (⟨a, b, raw.address, raw.street, raw.risk⟩ : Record)
      | _, _ => none) = some r
    ↔ toNumeric raw.lat = some r.lat ∧ toNumeric raw.lon = some r.lon
      ∧ raw.address = r.address ∧ raw.street = r.street ∧ raw.risk = r.risk := by
  obtain ⟨rlat, rlon, raddr, rstreet, rrisk⟩ := r
  cases h1 : toNumeric raw.lat <;> cases h2 : toNumeric raw.lon <;>
    simp [h1, h2, Record.mk.injEq]

/-- C8: sanitization keeps precisely the rows whose latitude and
longitude both coerce to numbers (unparseable or missing cells drop the
row), carrying the remaining fields over unchanged; and the centroid is
the arithmetic mean of the surviving coordinates — on the points (10,20)
and (10,22) (plus one unparseable row, which is dropped) it is (10,21). -/
theorem sanitize_drops_unparseable_and_centroid_mean :
    (∀ (rows : List RawRecord) (r : Record),
        r ∈ sanitize rows ↔ ∃ raw ∈ rows, toNumeric raw.lat = some r.lat
          ∧ toNumeric raw.lon = some r.lon ∧ raw.address = r.address
          ∧ raw.street = r.street ∧ raw.risk = r.risk)
  ∧ centroid (sanitize
      [⟨Cell.text "N/A", Cell.num 20, "x", "x St", "Low"⟩,
       ⟨Cell.num 10, Cell.num 20, "p", "p St", "Low"⟩,
       ⟨Cell.num 10, Cell.num 22, "q", "q St", "High"⟩]) = (10, 21) := by
  constructor
  · intro rows r
    simp only [sanitize, List.mem_filterMap]
    constructor
    · rintro ⟨raw, hraw, heq⟩
      exact ⟨raw, hraw, (sanitizeRow_eq raw r).mp heq⟩
    · rintro ⟨raw, hraw, h⟩
      exact ⟨raw, hraw, (sanitizeRow_eq raw r).mpr h⟩
  · norm_num [sanitize, centroid, toNumeric, List.filterMap_cons]

/-! ### C9 — distance engine -/

/-- C9: the distance engine yields one distance per record (a sequence of
matching length), every distance is non-negative, and the distance from a
reference point equal to a record's own coordinates is exactly 0 (the
real-valued model is total, so no NaN can arise). -/
theorem distance_engine_nonneg_self_zero :
    (∀ lat lon : ℝ, haversine_vec lat lon lat lon = 0)
  ∧ (∀ lat0 lon0 lat lon : ℝ, 0 ≤ haversine_vec lat0 lon0 lat lon)
  ∧ (∀ (lat0 lon0 : ℝ) (pts : List (ℝ × ℝ)),
      (distancesVec lat0 lon0 pts).length = pts.length)
  ∧ (∀ (lat0 lon0 : ℝ) (pts : List (ℝ × ℝ)),
      ∀ d ∈ distancesVec lat0 lon0 pts, 0 ≤ d) := by
  have hself : ∀ lat lon : ℝ, haversine_vec lat lon lat lon = 0 := by
    intro lat lon
    simp [haversine_vec, deg2rad, sub_self]
  have hnn : ∀ lat0 lon0 lat lon : ℝ, 0 ≤ haversine_vec lat0 lon0 lat lon := by
    intro lat0 lon0 lat lon
    simp only [haversine_vec]
    exact mul_nonneg (by norm_num) (Real.arcsin_nonneg.mpr (Real.sqrt_nonneg _))
  refine ⟨hself, hnn, fun lat0 lon0 pts => by simp [distancesVec], ?_⟩
  intro lat0 lon0 pts d hd
  simp only [distancesVec, List.mem_map] at hd
  obtain ⟨p, _, rfl⟩ := hd
  exact hnn lat0 lon0 p.1 p.2

/-- Witness for `distance_engine_nonneg_self_zero`: the membership
hypothesis of its last part discharged on a one-point dataset. -/
theorem distance_engine_nonneg_self_zero_witness :
    haversine_vec 0 0 0 0 ∈ distancesVec 0 0 [(0, 0)]
  ∧ 0 ≤ haversine_vec 0 0 0 0 :=
  have hmem : haversine_vec 0 0 0 0 ∈ distancesVec 0 0 [(0, 0)] := by
    simp [distancesVec]
  ⟨hmem, distance_engine_nonneg_self_zero.2.2.2 0 0 [(0, 0)] _ hmem⟩

/-! ### C2 — sort order, stability, ranks -/

lemma map_snd_assignRanks (l : List (Record × ℚ)) :
    (assignRanks l).map Prod.snd = List.range' 1 l.length := by
  have aux : ∀ (t : List (Record × ℚ)) (n : ℕ),
      ((t.enumFrom n).map fun p => (p.2, p.1 + 1)).map Prod.snd
        = List.range' (n + 1) t.length := by
    intro t
    induction t with
    | nil => intro n; rfl
    | cons a u ih =>
        intro n
        simp [List.enumFrom_cons, List.range'_succ, ih (n + 1)]
  simpa [assignRanks, List.enum] using aux l 0

/-- Counterexample for C2 as stated: the primary sort of the proximity
query (pandas `sort_values` with its default, unstable `quicksort` kind)
only promises a permutation of the filtered rows that is sorted by
distance; the reversed order of two tied rows satisfies that contract
while violating stability with respect to the original dataset order. -/
theorem proximity_sort_stability_not_guaranteed :
    proximityRel 10 [(demoA, 5), (demoB, 5)] [(demoB, 5), (demoA, 5)]
  ∧ ¬ StableTies [(demoA, 5), (demoB, 5)] [(demoB, 5), (demoA, 5)] := by
  constructor
  · unfold proximityRel sortValuesOut
    exact ⟨by decide, by decide⟩
  · intro h
    have h1 := h (demoB, 5) (by decide) (demoA, 5) (by decide) rfl
    exact absurd (h1.mp (by decide)) (by decide)

/-- C2 (amended): every possible output of the proximity query is sorted
by non-decreasing distance, is a permutation of the radius-filtered rows,
and receives ranks 1..N in that order; the relative order of rows with
equal distance is not specified (the primary sort is pandas quicksort,
and the only stable re-sort, in the table tab, keys on rounded feet and
preserves just the post-sort order). -/
theorem proximity_sorted_and_ranked (radius : ℚ) (rows output : List (Record × ℚ))
    (h : proximityRel radius rows output) :
    sortedByDistB output = true
  ∧ output.Perm (nearbyFilter radius rows)
  ∧ (assignRanks output).map Prod.snd = List.range' 1 output.length := by
  obtain ⟨hp, hs⟩ := h
  exact ⟨hs, hp, map_snd_assignRanks output⟩

/-- Witness for `proximity_sorted_and_ranked` at a concrete query. -/
theorem proximity_sorted_and_ranked_witness :
    sortedByDistB [(demoB, 5), (demoA, 5)] = true
  ∧ List.Perm [(demoB, 5), (demoA, 5)] (nearbyFilter 10 [(demoA, 5), (demoB, 5)])
  ∧ (assignRanks [(demoB, 5), (demoA, 5)]).map Prod.snd
      = List.range' 1 (List.length [(demoB, 5), (demoA, 5)]) :=
  proximity_sorted_and_ranked 10 [(demoA, 5), (demoB, 5)] [(demoB, 5), (demoA, 5)]
    (by unfold proximityRel sortValuesOut; exact ⟨by decide, by decide⟩)

/-! ### C4 — self-match policy -/

/-- Counterexample for C4 as stated: with the selected record in the
dataset at self-distance 0, the row for the selected record is in the
result set and its coordinates also appear among the neighbor markers —
the marker loop iterates over all of `nearby_df` and does not exclude the
self-match. -/
theorem self_match_marker_drawn :
    (demoA, (0 : ℚ)) ∈ (build_focused_map_and_nearby
        (fun r => if r = demoA then 0 else 5) (radius_m 200) [demoA, demoB]).2
  ∧ (demoA.lat, demoA.lon) ∈ (build_focused_map_and_nearby
        (fun r => if r = demoA then 0 else 5) (radius_m 200) [demoA, demoB]).1 := by
  have h1 : (demoA, (0 : ℚ)) ∈ proximityQuery
      (fun r => if r = demoA then 0 else 5) (radius_m 200) [demoA, demoB] := by
    simp only [proximityQuery, mem_sortByDist, nearbyFilter, withDist,
      List.map_cons, List.map_nil, List.mem_filter]
    norm_num [radius_m]
  constructor
  · simpa [build_focused_map_and_nearby] using h1
  · simp only [build_focused_map_and_nearby]
    exact List.mem_map_of_mem _ h1

/-- C4 (amended): when the reference point coincides with a record
(self-distance 0) and the radius is non-negative, that record is included
in its own proximity result set, and it is also included in the neighbor
marker rendering (and hence in the tabular result) — the marker loop does
not exclude the self-match. -/
theorem self_match_included (dist : Record → ℚ) (sel : Record) (ds : List Record)
    (radius : ℚ) (hmem : sel ∈ ds) (hdist : dist sel = 0) (hrad : 0 ≤ radius) :
    (sel, (0 : ℚ)) ∈ (build_focused_map_and_nearby dist radius ds).2
  ∧ (sel.lat, sel.lon) ∈ (build_focused_map_and_nearby dist radius ds).1 := by
  have h1 : (sel, (0 : ℚ)) ∈ proximityQuery dist radius ds := by
    simp only [proximityQuery, mem_sortByDist, nearbyFilter, withDist, List.mem_filter]
    refine ⟨?_, by simpa using hrad⟩
    have h2 := List.mem_map_of_mem (fun r => (r, dist r)) hmem
    simp only at h2
    rwa [hdist] at h2
  constructor
  · simpa [build_focused_map_and_nearby] using h1
  · simp only [build_focused_map_and_nearby]
    exact List.mem_map_of_mem _ h1

/-- Witness for `self_match_included` on a concrete two-record dataset. -/
theorem self_match_included_witness :
    demoA ∈ [demoA, demoB]
  ∧ (demoA, (0 : ℚ)) ∈ (build_focused_map_and_nearby
      (fun r => if r = demoA then (0 : ℚ) else 5) (radius_m 300) [demoA, demoB]).2 :=
  ⟨by decide,
    (self_match_included (fun r => if r = demoA then (0 : ℚ) else 5) demoA [demoA, demoB]
      (radius_m 300) (by decide) (by simp) (by norm_num [radius_m])).1⟩

/-! ### C6 — map-click selection -/

lemma argmin?_spec (l : List ℚ) : ∀ (j : ℕ) (m : ℚ), argmin? l = some (j, m) →
    l[j]? = some m ∧ ∀ x ∈ l, m ≤ x := by
  induction l with
  | nil =>
      intro j m h
      simp [argmin?] at h
  | cons a t ih =>
      intro j m h
      cases ht : argmin? t with
      | none =>
          simp only [argmin?, ht] at h
          obtain ⟨hj, hm⟩ := by simpa using h
          subst hj
          subst hm
          have ht' : t = [] := by
            cases t with
            | nil => rfl
            | cons b u =>
                exfalso
                cases hu : argmin? u with
                | none => simp [argmin?, hu] at ht
                | some jm' =>
                    obtain ⟨j₂, m₂⟩ := jm'
                    simp only [argmin?, hu] at ht
                    split at ht <;> simp at ht
          subst ht'
          exact ⟨by simp, by simp⟩
      | some jm =>
          obtain ⟨j', m'⟩ := jm
          obtain ⟨hj', hm'⟩ := ih j' m' ht
          simp only [argmin?, ht] at h
          by_cases hc : a ≤ m'
          · rw [if_pos hc] at h
            obtain ⟨hj, hm⟩ := by simpa using h
            subst hj
            subst hm
            refine ⟨by simp, ?_⟩
            intro x hx
            rcases List.mem_cons.mp hx with rfl | hx'
            · exact le_refl _
            · exact le_trans hc (hm' x hx')
          · rw [if_neg hc] at h
            obtain ⟨hj, hm⟩ := by simpa using h
            subst hj
            subst hm
            refine ⟨by simpa using hj', ?_⟩
            intro x hx
            rcases List.mem_cons.mp hx with rfl | hx'
            · exact le_of_lt (lt_of_not_ge hc)
            · exact hm' x hx'

/-- C6: the click handler computes the distances from the clicked point
to every record and takes the first record of minimal distance; when that
minimum exceeds the current radius, the interaction leaves the state with
no selection on the overview (map) tab and surfaces a non-fatal notice
(the handler is total — no exception escapes); otherwise the interaction
selects that record, recomputes the neighbor set as its proximity query,
and lands on the detail (table) tab with no notice. -/
theorem selectByClick_spec (distOf : Record → Record → ℚ) (clickDist : Record → ℚ)
    (ds : List Record) (radius : ℚ) (s : AppState) (j : ℕ) (m : ℚ)
    (hmin : argmin? (ds.map clickDist) = some (j, m)) :
    (radius < m →
        (clickInteraction distOf clickDist ds radius s).state.selected = none
      ∧ (clickInteraction distOf clickDist ds radius s).state.active_tab = Tab.map
      ∧ (clickInteraction distOf clickDist ds radius s).notice = true)
  ∧ (m ≤ radius →
      ∃ nr : Record, nr ∈ ds ∧ clickDist nr = m ∧ (∀ r ∈ ds, m ≤ clickDist r)
        ∧ (clickInteraction distOf clickDist ds radius s).state.selected = some nr
        ∧ (clickInteraction distOf clickDist ds radius s).state.nearby
            = proximityQuery (distOf nr) radius ds
        ∧ (clickInteraction distOf clickDist ds radius s).state.active_tab = Tab.table
        ∧ (clickInteraction distOf clickDist ds radius s).notice = false) := by
  obtain ⟨hget, hle⟩ := argmin?_spec (ds.map clickDist) j m hmin
  constructor
  · intro hlt
    simp [clickInteraction, clickStep, hmin, if_pos hlt]
  · intro hge
    have hnotlt : ¬ radius < m := not_lt.mpr hge
    obtain ⟨r0, hr0, hcd⟩ : ∃ r0, ds[j]? = some r0 ∧ clickDist r0 = m := by
      rw [List.getElem?_map] at hget
      cases hds : ds[j]? with
      | none => rw [hds] at hget; simp at hget
      | some r0 =>
          rw [hds] at hget
          exact ⟨r0, rfl, by simpa using hget⟩
    have hfinal : clickInteraction distOf clickDist ds radius s
        = ⟨⟨some r0, proximityQuery (distOf r0) radius ds, Tab.table⟩, false, true⟩ := by
      simp [clickInteraction, clickStep, hmin, if_neg hnotlt, hr0, tab1Render]
    refine ⟨r0, List.getElem?_mem hr0, hcd, ?_, ?_, ?_, ?_, ?_⟩
    · intro r hr
      exact hle (clickDist r) (List.mem_map_of_mem clickDist hr)
    · rw [hfinal]
    · rw [hfinal]
    · rw [hfinal]
    · rw [hfinal]

/-- Witness for `selectByClick_spec`: the spec scenario — nearest record
500 m away with the 300 ft radius (91.44 m) — ends with no selection on
the overview tab and a notice. -/
theorem selectByClick_spec_witness :
    (clickInteraction (fun _ _ => 0) (fun _ => 500) [demoA] (radius_m 300)
        initialState).state.selected = none
  ∧ (clickInteraction (fun _ _ => 0) (fun _ => 500) [demoA] (radius_m 300)
        initialState).state.active_tab = Tab.map
  ∧ (clickInteraction (fun _ _ => 0) (fun _ => 500) [demoA] (radius_m 300)
        initialState).notice = true :=
  (selectByClick_spec (fun _ _ => 0) (fun _ => 500) [demoA] (radius_m 300) initialState 0 500
    (by decide)).1 (by norm_num [radius_m])

/-! ### C1 — staleness of the stored result set -/

/-- C1, evaluated at the failing input: starting from the initial state,
an address search selects `demoA` and the tab1 render stores its
(non-empty) neighbor results; a subsequent map click whose nearest record
is 500 away, with radius 300 ft (91.44 m), makes the handler clear the
selection and return to the map tab — but the stored `nearby_df` still
holds the previous selection's results, so the state has `selected =
none` with non-empty leftover results, violating the invariant that the
results always belong to the current selection. -/
theorem stale_results_after_click_miss :
    (clickInteraction (fun _ _ => 0) (fun _ => 500) [demoA] (radius_m 300)
        (searchStep [demoA] "A" initialState)).state
      = ⟨none, [(demoA, 0)], Tab.map⟩
  ∧ [(demoA, (0 : ℚ))] ≠ ([] : List (Record × ℚ)) := by
  have hs : searchStep [demoA] "A" initialState = ⟨some demoA, [], Tab.table⟩ := by
    decide
  have hq : proximityQuery (fun _ => (0 : ℚ)) (radius_m 300) [demoA] = [(demoA, 0)] := by
    simp only [proximityQuery, nearbyFilter, withDist, List.map_cons, List.map_nil,
      List.filter_cons, List.filter_nil]
    norm_num [radius_m, sortByDist, insertByDist]
  refine ⟨?_, by decide⟩
  rw [hs]
  simp [clickInteraction, tab1Render, clickStep, argmin?, hq]
  norm_num [radius_m]

end RiskIndex
